import Mathlib

/-!
Verification of the healthvisual decentralized clinic network against its
specification.  The Python sources (`clinic_node.py`, `aggregator_server.py`)
are shallowly embedded: pure functions become Lean functions over `ℚ`
(Python's ints and floats), stateful methods thread an explicit state value,
random draws (Laplace and Gaussian noise) become explicit parameters, and
time instants are rationals measured in days since an arbitrary epoch.
-/

namespace HealthVisual

/-! ## ClinicNode: risk scoring (`clinic_node.py`, `calculate_risk_score`) -/

/-- Python `str.lower()`, modelled character-wise on the character list of a
string. -/
def lowerStr (s : List Char) : List Char := s.map Char.toLower

/-- The fixed high-risk lexicon of `ClinicNode.calculate_risk_score`. -/
def high_risk_symptoms : List (List Char) :=
  ["fever".data, "difficulty breathing".data, "chest pain".data, "confusion".data]

/-- The per-symptom test of `calculate_risk_score`:
`any(hrs in symptom.lower() for hrs in high_risk_symptoms)`, i.e. some lexicon
member is a contiguous substring of the lowercased symptom. -/
def isHighRisk (symptom : List Char) : Bool :=
  high_risk_symptoms.any (fun hrs => decide (hrs <:+: lowerStr symptom))

/-- `ClinicNode.calculate_risk_score`: baseline `severity / 10.0`, plus `0.2`
for every symptom string that contains a high-risk lexicon member, finally
`min(risk, 1.0)`. -/
def calculate_risk_score (symptoms : List (List Char)) (severity : ℤ) : ℚ :=
  min (symptoms.foldl
        (fun risk s => if isHighRisk s then risk + 2/10 else risk)
        ((severity : ℚ) / 10)) 1

/-! ## ClinicNode: differential privacy (`apply_differential_privacy`) -/

/-- `ClinicNode.apply_differential_privacy`.  The two Laplace draws
`np.random.laplace(0, sensitivity/epsilon)` are passed in explicitly as
`noiseCount` and `noiseRisk`; both the `"patient_count"` and
`"avg_risk_score"` keys are always present in the dict this method receives
from `get_aggregated_data`.  Returns the pair
(noisy patient count, noisy average risk score):
`max(0, count + noise)` and `np.clip(avg + noise, 0, 1) = min (max (avg + noise) 0) 1`. -/
def apply_differential_privacy (noiseCount noiseRisk : ℚ)
    (patient_count avg_risk_score : ℚ) : ℚ × ℚ :=
  (max 0 (patient_count + noiseCount),
   min (max (avg_risk_score + noiseRisk) 0) 1)

/-! ## ClinicNode: state and record ingestion -/

/-- An incoming `SymptomRecord` (pydantic model): symptoms, severity, and an
optional timestamp (instants are rationals measured in days). -/
structure SymptomRecord where
  symptoms : List (List Char)
  severity : ℤ
  timestamp : Option ℚ
deriving DecidableEq

/-- An entry of `ClinicNode.patient_records` as stored by
`add_patient_record`. -/
structure StoredRecord where
  symptoms : List (List Char)
  severity : ℤ
  risk_score : ℚ
  timestamp : ℚ
deriving DecidableEq

/-- The mutable state of a `ClinicNode`. -/
structure ClinicNode where
  node_id : List Char
  lat : ℚ
  lon : ℚ
  patient_records : List StoredRecord
deriving DecidableEq

/-- `ClinicNode.add_patient_record`: stamps the record with `now` when it
carries no timestamp, computes the risk score, appends the stored record to
`patient_records`, and returns the score.  The method performs no validation
of `severity` (the pydantic field is a bare `int`), so out-of-range
severities are stored like any others. -/
def add_patient_record (node : ClinicNode) (now : ℚ) (r : SymptomRecord) :
    ClinicNode × ℚ :=
  let ts := r.timestamp.getD now
  let risk_score := calculate_risk_score r.symptoms r.severity
  ({ node with patient_records :=
      node.patient_records ++ [⟨r.symptoms, r.severity, risk_score, ts⟩] },
   risk_score)

/-! ## ClinicNode: integrity hash (`hash_node_data`) -/

/-- A token of the canonical JSON text produced by
`json.dumps(data, sort_keys=True)`.  JSON renders distinct numbers (and
distinct timestamp strings) as distinct character sequences, so the flat text
is modelled at this token granularity; `str` carries the instant whose
isoformat string is quoted. -/
inductive JsonTok where
  | objStart : JsonTok
  | objEnd : JsonTok
  | comma : JsonTok
  | key : List Char → JsonTok
  | num : ℚ → JsonTok
  | str : ℚ → JsonTok
deriving DecidableEq

/-- The pre-noise statistics dict built by `get_aggregated_data`:
`{"patient_count": ..., "avg_risk_score": ..., "location": {"lat": ..., "lon": ...},
"timestamp": ...}`. -/
structure NodeData where
  patient_count : ℚ
  avg_risk_score : ℚ
  lat : ℚ
  lon : ℚ
  timestamp : ℚ
deriving DecidableEq

/-- `json.dumps(data, sort_keys=True)`: the canonical serialization of the
statistics dict with keys in sorted order (`avg_risk_score`, `location`
(inner keys `lat`, `lon`), `patient_count`, `timestamp`). -/
def canonical_serialization (d : NodeData) : List JsonTok :=
  [JsonTok.objStart,
   JsonTok.key "avg_risk_score".data, JsonTok.num d.avg_risk_score, JsonTok.comma,
   JsonTok.key "location".data, JsonTok.objStart,
   JsonTok.key "lat".data, JsonTok.num d.lat, JsonTok.comma,
   JsonTok.key "lon".data, JsonTok.num d.lon, JsonTok.objEnd, JsonTok.comma,
   JsonTok.key "patient_count".data, JsonTok.num d.patient_count, JsonTok.comma,
   JsonTok.key "timestamp".data, JsonTok.str d.timestamp, JsonTok.objEnd]

/-- `ClinicNode.hash_node_data`: SHA-256 of the canonical serialization.
SHA-256 itself is modelled as an abstract hash function `H`; its
collision-freeness on these inputs is taken as a hypothesis where a claim
needs it. -/
def hash_node_data {Hash : Type} (H : List JsonTok → Hash) (d : NodeData) : Hash :=
  H (canonical_serialization d)

/-! ## ClinicNode: aggregate construction (`get_aggregated_data`) -/

/-- The aggregate dict returned by `get_aggregated_data` (field `data_hash`
added after noising). -/
structure NodeAggregate (Hash : Type) where
  patient_count : ℚ
  avg_risk_score : ℚ
  lat : ℚ
  lon : ℚ
  timestamp : ℚ
  data_hash : Hash
deriving DecidableEq

/-- Python `np.mean` over a list of rationals. -/
def listMean (l : List ℚ) : ℚ := l.sum / l.length

/-- The record filter of `get_aggregated_data`:
`datetime.fromisoformat(r["timestamp"]) > datetime.now() - timedelta(days=7)`. -/
def recentRecords (node : ClinicNode) (now : ℚ) : List StoredRecord :=
  node.patient_records.filter (fun r => now - 7 < r.timestamp)

/-- `ClinicNode.get_aggregated_data`, in state-passing form (first component
of the result is the node state after the call).  Returns `none` when
`patient_records` is empty or no record lies in the 7-day window; otherwise
builds the pre-noise statistics, applies `apply_differential_privacy` (the
two Laplace draws passed as `noiseCount`, `noiseRisk`), and attaches
`data_hash = hash_node_data` of the pre-noise dict. -/
def get_aggregated_data {Hash : Type} (H : List JsonTok → Hash)
    (node : ClinicNode) (now : ℚ) (noiseCount noiseRisk : ℚ) :
    ClinicNode × Option (NodeAggregate Hash) :=
  if node.patient_records = [] then (node, none)
  else
    let recent := recentRecords node now
    if recent = [] then (node, none)
    else
      let data : NodeData :=
        ⟨(recent.length : ℚ), listMean (recent.map (fun r => r.risk_score)),
         node.lat, node.lon, now⟩
      let noisy := apply_differential_privacy noiseCount noiseRisk
        data.patient_count data.avg_risk_score
      (node, some ⟨noisy.1, noisy.2, node.lat, node.lon, now,
                   hash_node_data H data⟩)

/-! ## Aggregator: time series store (`aggregator_server.py`) -/

/-- One entry of `Aggregator.time_series_data`: `add_node_data` appends
`{"patient_count": ..., "avg_risk_score": ...}` under the calendar date of
the message's timestamp.  The `defaultdict(date -> list)` keeps, for each
date, the entries in arrival order; it is modelled extensionally as the flat
arrival-ordered list of entries tagged with their date, grouped on demand
(`sum` and `mean` do not depend on per-date order). -/
structure ReceivedData where
  date : ℤ
  patient_count : ℚ
  avg_risk_score : ℚ
deriving DecidableEq

/-- `Aggregator.add_node_data` restricted to the time-series store: append
the entry (the full message is also appended to `node_data`, which the
series construction never reads). -/
def add_node_data (ts : List ReceivedData) (e : ReceivedData) : List ReceivedData :=
  ts ++ [e]

/-- The key set of `time_series_data`: the calendar dates holding at least
one entry. -/
def tsDates (ts : List ReceivedData) : Finset ℤ :=
  (ts.map (fun e => e.date)).toFinset

/-- `sorted(self.time_series_data.keys())`. -/
def sorted_dates (ts : List ReceivedData) : List ℤ :=
  (tsDates ts).sort (· ≤ ·)

/-- The per-date body of the loop in `Aggregator.prepare_time_series`: for
`"patient_count"` append the sum over the date's entries, for
`"avg_risk_score"` append their mean, otherwise append nothing. -/
def dayValue (metric : List Char) (day_data : List ReceivedData) : List ℚ :=
  if metric = "patient_count".data then
    [(day_data.map (fun e => e.patient_count)).sum]
  else if metric = "avg_risk_score".data then
    [listMean (day_data.map (fun e => e.avg_risk_score))]
  else []

/-- `Aggregator.prepare_time_series`: `[]` when the store is empty, otherwise
one appended value per sorted date key. -/
def prepare_time_series (ts : List ReceivedData) (metric : List Char) : List ℚ :=
  if ts = [] then []
  else (sorted_dates ts).flatMap
    (fun d => dayValue metric (ts.filter (fun e => e.date = d)))

/-! ## Aggregator: ARIMA forecast scaffolding (`arima_forecast`) -/

/-- The series handed to ARIMA fitting by `Aggregator.arima_forecast`: when
the real daily series has fewer than 10 points it is replaced by 30
synthetic points (`base_value + np.random.normal(0, base_value * 0.2)`,
draws passed in as `jitter`) followed, via `extend`, by the real series;
otherwise the real series itself. -/
def fitting_series (metric : List Char) (jitter : ℕ → ℚ)
    (ts : List ReceivedData) : List ℚ :=
  let time_series := prepare_time_series ts metric
  if time_series.length < 10 then
    let base_value : ℚ := if metric = "patient_count".data then 50 else 3/10
    ((List.range 30).map (fun i => base_value + jitter i))
      ++ prepare_time_series ts metric
  else time_series

/-- Python `l[-14:]`: the last 14 elements (the whole list when shorter). -/
def takeLast14 (l : List ℚ) : List ℚ := l.drop (l.length - 14)

/-- The `"historical_data"` field of `arima_forecast`'s result:
`time_series[-14:]` of the series used for fitting. -/
def arima_forecast_historical (metric : List Char) (jitter : ℕ → ℚ)
    (ts : List ReceivedData) : List ℚ :=
  takeLast14 (fitting_series metric jitter ts)

/-- The `"forecast_dates"` field of `arima_forecast`'s result:
`[(datetime.now() + timedelta(days=i+1)).isoformat() for i in range(periods)]`,
with instants as rationals in days. -/
def arima_forecast_dates (now : ℚ) (periods : ℕ) : List ℚ :=
  (List.range periods).map (fun i : ℕ => now + ((i : ℚ) + 1))

/-! ## Theorems -/

/-- The risk accumulation loop of `calculate_risk_score` adds `0.2` once per
matching symptom. -/
lemma foldl_risk (l : List (List Char)) (a : ℚ) :
    l.foldl (fun risk s => if isHighRisk s then risk + 2/10 else risk) a
      = a + (l.countP isHighRisk : ℚ) * (2/10) := by
  induction l generalizing a with
  | nil => simp
  | cons s t ih =>
    by_cases h : isHighRisk s
    · simp only [List.foldl_cons, if_pos h, ih, List.countP_cons, h, if_true]
      push_cast
      ring
    · simp only [List.foldl_cons, if_neg h, ih, List.countP_cons, h, if_false]
      push_cast
      ring

/-- C1: for every symptom list and every severity in `[1,10]`, the risk score
equals `severity/10` plus `0.2` per symptom containing a high-risk lexicon
member (increments stacking across symptoms), clamped at `1.0`, and the
returned score lies in `[0,1]`. -/
theorem c1_risk_score (symptoms : List (List Char)) (severity : ℤ)
    (h1 : 1 ≤ severity) (h2 : severity ≤ 10) :
    calculate_risk_score symptoms severity
        = min ((severity : ℚ) / 10 + (symptoms.countP isHighRisk : ℚ) * (2/10)) 1
      ∧ 0 ≤ calculate_risk_score symptoms severity
      ∧ calculate_risk_score symptoms severity ≤ 1 := by
  have key : calculate_risk_score symptoms severity
      = min ((severity : ℚ) / 10 + (symptoms.countP isHighRisk : ℚ) * (2/10)) 1 := by
    unfold calculate_risk_score
    rw [foldl_risk]
  refine ⟨key, ?_, ?_⟩
  · rw [key]
    have hs : (1 : ℚ) ≤ (severity : ℚ) := by exact_mod_cast h1
    have hc : (0 : ℚ) ≤ (symptoms.countP isHighRisk : ℚ) := Nat.cast_nonneg _
    exact le_min (by nlinarith) (by norm_num)
  · rw [key]
    exact min_le_right _ _

/-- Witness for C1 at symptoms `["fever"]`, severity `7`. -/
theorem c1_risk_score_witness :
    (1 : ℤ) ≤ 7 ∧ (7 : ℤ) ≤ 10 ∧
      (calculate_risk_score ["fever".data] 7
          = min ((7 : ℚ) / 10 + (List.countP isHighRisk ["fever".data] : ℚ) * (2/10)) 1
        ∧ 0 ≤ calculate_risk_score ["fever".data] 7
        ∧ calculate_risk_score ["fever".data] 7 ≤ 1) :=
  ⟨by decide, by decide, c1_risk_score ["fever".data] 7 (by decide) (by decide)⟩

/-- C4: after noise injection the patient count is floored at `0` and the
average risk score is clipped to `[0,1]`, for every input value and every
Laplace draw. -/
theorem c4_noise_clipped (noiseCount noiseRisk patient_count avg_risk_score : ℚ) :
    0 ≤ (apply_differential_privacy noiseCount noiseRisk patient_count avg_risk_score).1
      ∧ 0 ≤ (apply_differential_privacy noiseCount noiseRisk patient_count avg_risk_score).2
      ∧ (apply_differential_privacy noiseCount noiseRisk patient_count avg_risk_score).2 ≤ 1 := by
  simp only [apply_differential_privacy]
  exact ⟨le_sup_left, le_inf le_sup_right zero_le_one, inf_le_right⟩

/-- The pre-noise statistics dict `data` built by `get_aggregated_data`:
count and mean risk of the records in the 7-day window, the node's location
and the current instant. -/
def pre_noise_data (node : ClinicNode) (now : ℚ) : NodeData :=
  ⟨((recentRecords node now).length : ℚ),
   listMean ((recentRecords node now).map (fun r => r.risk_score)),
   node.lat, node.lon, now⟩

/-- Closed-form description of `get_aggregated_data`: the state is returned
unchanged, and the result is `none` exactly when the 7-day window is empty,
otherwise the noised-and-clipped statistics with the hash of the pre-noise
dict. -/
lemma get_aggregated_data_spec {Hash : Type} (H : List JsonTok → Hash)
    (node : ClinicNode) (now n1 n2 : ℚ) :
    get_aggregated_data H node now n1 n2 =
      (node,
       if recentRecords node now = [] then none
       else some ⟨max 0 ((pre_noise_data node now).patient_count + n1),
                  min (max ((pre_noise_data node now).avg_risk_score + n2) 0) 1,
                  node.lat, node.lon, now,
                  hash_node_data H (pre_noise_data node now)⟩) := by
  unfold get_aggregated_data pre_noise_data apply_differential_privacy
  by_cases h1 : node.patient_records = []
  · have h2 : recentRecords node now = [] := by simp [recentRecords, h1]
    simp [h1, h2]
  · by_cases h2 : recentRecords node now = [] <;> simp [h1, h2]

/-- C2: `get_aggregated_data` returns `None` iff no stored record lies in the
7-day reporting window; otherwise the aggregate's pre-noise patient count is
the number of records in the window and its pre-noise average risk is the
arithmetic mean of their risk scores, with the noise draws applied
independently to the two metrics and the results clipped to their valid
ranges. -/
theorem c2_build_aggregate {Hash : Type} (H : List JsonTok → Hash)
    (node : ClinicNode) (now n1 n2 : ℚ) :
    ((get_aggregated_data H node now n1 n2).2 = none
        ↔ recentRecords node now = [])
  ∧ (get_aggregated_data H node now n1 n2).2 =
      (if recentRecords node now = [] then none
       else some
         ⟨max 0 (((recentRecords node now).length : ℚ) + n1),
          min (max (listMean ((recentRecords node now).map (fun r => r.risk_score)) + n2) 0) 1,
          node.lat, node.lon, now,
          hash_node_data H (pre_noise_data node now)⟩) := by
  rw [get_aggregated_data_spec]
  by_cases h2 : recentRecords node now = [] <;>
    simp [h2, pre_noise_data]

/-- C10: building an aggregate is read-only with respect to node state:
`get_aggregated_data` leaves `patient_records`, `node_id` and the location
unchanged, and a repeated call on the returned state observes the same
stored records and produces the same result. -/
theorem c10_read_only {Hash : Type} (H : List JsonTok → Hash)
    (node : ClinicNode) (now n1 n2 : ℚ) :
    (get_aggregated_data H node now n1 n2).1 = node
  ∧ (get_aggregated_data H node now n1 n2).1.patient_records = node.patient_records
  ∧ (get_aggregated_data H node now n1 n2).1.node_id = node.node_id
  ∧ (get_aggregated_data H node now n1 n2).1.lat = node.lat
  ∧ (get_aggregated_data H node now n1 n2).1.lon = node.lon
  ∧ (get_aggregated_data H (get_aggregated_data H node now n1 n2).1 now n1 n2).2
      = (get_aggregated_data H node now n1 n2).2 := by
  have h : (get_aggregated_data H node now n1 n2).1 = node := by
    rw [get_aggregated_data_spec]
  exact ⟨h, by rw [h], by rw [h], by rw [h], by rw [h], by rw [h]⟩

/-- The canonical serialization determines the pre-noise dict: two dicts with
the same serialization agree on every field. -/
lemma canonical_serialization_inj (d1 d2 : NodeData)
    (h : canonical_serialization d1 = canonical_serialization d2) : d1 = d2 := by
  cases d1
  cases d2
  simp_all [canonical_serialization]

/-- C3: the integrity hash is a pure function of the sorted-key canonical
serialization of the pre-noise tuple: identical pre-noise tuples give
identical hashes, any differing tuple (in particular one differing in a
single field) gives a different hash provided the underlying hash function is
collision-free, and the hash attached by `get_aggregated_data` is computed
over the pre-noise statistics for every noise draw, never over the noisy
values. -/
theorem c3_integrity_hash {Hash : Type} (H : List JsonTok → Hash)
    (hH : Function.Injective H) :
    (∀ d1 d2 : NodeData,
        d1.patient_count = d2.patient_count →
        d1.avg_risk_score = d2.avg_risk_score →
        d1.lat = d2.lat → d1.lon = d2.lon → d1.timestamp = d2.timestamp →
        hash_node_data H d1 = hash_node_data H d2)
  ∧ (∀ d1 d2 : NodeData, d1 ≠ d2 → hash_node_data H d1 ≠ hash_node_data H d2)
  ∧ (∀ (node : ClinicNode) (now n1 n2 : ℚ),
      Option.map (fun a => a.data_hash) (get_aggregated_data H node now n1 n2).2
        = if recentRecords node now = [] then none
          else some (hash_node_data H (pre_noise_data node now))) := by
  refine ⟨?_, ?_, ?_⟩
  · intro d1 d2 h1 h2 h3 h4 h5
    cases d1
    cases d2
    simp_all
  · intro d1 d2 hne habs
    exact hne (canonical_serialization_inj d1 d2 (hH habs))
  · intro node now n1 n2
    rw [get_aggregated_data_spec]
    by_cases h2 : recentRecords node now = [] <;> simp [h2]

/-- A concrete pre-noise dict for the C3 witness. -/
def nodeDataA : NodeData := ⟨3, 1/2, 30, 76, 0⟩

/-- A second pre-noise dict differing from `nodeDataA` only in its
timestamp. -/
def nodeDataB : NodeData := ⟨3, 1/2, 30, 76, 1⟩

/-- Witness for C3 with the identity (hence injective) hash function and two
dicts differing only in their timestamp. -/
theorem c3_integrity_hash_witness :
    nodeDataA ≠ nodeDataB
  ∧ hash_node_data (fun t => t) nodeDataA ≠ hash_node_data (fun t => t) nodeDataB :=
  ⟨by simp [nodeDataA, nodeDataB], by
    exact (c3_integrity_hash (fun t => t) Function.injective_id).2.1
      nodeDataA nodeDataB (by simp [nodeDataA, nodeDataB])⟩

/-- An empty clinic node, used to evaluate `add_patient_record` on an
out-of-range severity. -/
def node8 : ClinicNode := ⟨"node1".data, 30, 76, []⟩

/-- C8 (code evaluation): `add_patient_record` performs no severity
validation.  In general every record grows `patient_records` by one, and at
the concrete out-of-range input `severity = 0` the record is stored and a
risk score (`0`) is produced instead of a synchronous rejection. -/
theorem c8_no_validation :
    (∀ (node : ClinicNode) (now : ℚ) (r : SymptomRecord),
        (add_patient_record node now r).1.patient_records.length
          = node.patient_records.length + 1)
  ∧ (add_patient_record node8 5 ⟨[], 0, none⟩).1.patient_records = [⟨[], 0, 0, 5⟩]
  ∧ (add_patient_record node8 5 ⟨[], 0, none⟩).2 = 0 := by
  refine ⟨?_, ?_, ?_⟩
  · intro node now r
    simp [add_patient_record]
  · norm_num [add_patient_record, node8, calculate_risk_score]
  · norm_num [add_patient_record, calculate_risk_score]

/-- Each loop step of `prepare_time_series` appends exactly one value. -/
lemma flatMap_single {α : Type} (l : List α) (g : α → ℚ) :
    (l.flatMap fun d => [g d]) = l.map g := by
  induction l with
  | nil => rfl
  | cons a t ih => simp [ih]

/-- `prepare_time_series` for `"patient_count"`: per sorted date, the sum of
that date's entries. -/
lemma prepare_time_series_count (ts : List ReceivedData) :
    prepare_time_series ts "patient_count".data
      = (sorted_dates ts).map
          (fun d => ((ts.filter (fun x => x.date = d)).map
              (fun x => x.patient_count)).sum) := by
  unfold prepare_time_series
  by_cases h : ts = []
  · subst h
    simp [sorted_dates, tsDates]
  · rw [if_neg h]
    simp [dayValue, flatMap_single]

/-- `prepare_time_series` for `"avg_risk_score"`: per sorted date, the mean
of that date's entries. -/
lemma prepare_time_series_mean (ts : List ReceivedData) :
    prepare_time_series ts "avg_risk_score".data
      = (sorted_dates ts).map
          (fun d => listMean ((ts.filter (fun x => x.date = d)).map
              (fun x => x.avg_risk_score))) := by
  unfold prepare_time_series
  by_cases h : ts = []
  · subst h
    simp [sorted_dates, tsDates]
  · rw [if_neg h]
    have hne : ("avg_risk_score".data = "patient_count".data) = False := by
      simp
    simp [dayValue, hne, flatMap_single]

/-- C9: the daily series has exactly one value per calendar date holding at
least one aggregate (sum for `patient_count`, mean for `avg_risk_score`),
taken in ascending date order; the date keys are exactly the dates of stored
entries (no zero-aggregate date is fabricated); and the series length is
monotonically non-decreasing under `add_node_data`. -/
theorem c9_daily_series (ts : List ReceivedData) (e : ReceivedData) :
    prepare_time_series ts "patient_count".data
        = (sorted_dates ts).map
            (fun d => ((ts.filter (fun x => x.date = d)).map
                (fun x => x.patient_count)).sum)
  ∧ prepare_time_series ts "avg_risk_score".data
        = (sorted_dates ts).map
            (fun d => listMean ((ts.filter (fun x => x.date = d)).map
                (fun x => x.avg_risk_score)))
  ∧ (prepare_time_series ts "patient_count".data).length = (tsDates ts).card
  ∧ (prepare_time_series ts "avg_risk_score".data).length = (tsDates ts).card
  ∧ List.Sorted (· < ·) (sorted_dates ts)
  ∧ (∀ d : ℤ, d ∈ sorted_dates ts ↔ ∃ x ∈ ts, x.date = d)
  ∧ (prepare_time_series ts "patient_count".data).length
      ≤ (prepare_time_series (add_node_data ts e) "patient_count".data).length
  ∧ (prepare_time_series ts "avg_risk_score".data).length
      ≤ (prepare_time_series (add_node_data ts e) "avg_risk_score".data).length := by
  have hlen : ∀ u : List ReceivedData,
      (prepare_time_series u "patient_count".data).length = (tsDates u).card
      ∧ (prepare_time_series u "avg_risk_score".data).length = (tsDates u).card := by
    intro u
    constructor
    · rw [prepare_time_series_count, List.length_map]
      exact Finset.length_sort _
    · rw [prepare_time_series_mean, List.length_map]
      exact Finset.length_sort _
  have hcard : (tsDates ts).card ≤ (tsDates (add_node_data ts e)).card := by
    apply Finset.card_le_card
    intro d hd
    simp only [tsDates, add_node_data, List.map_append, List.toFinset_append,
      Finset.mem_union] at hd ⊢
    exact Or.inl hd
  refine ⟨prepare_time_series_count ts, prepare_time_series_mean ts,
    (hlen ts).1, (hlen ts).2, ?_, ?_, ?_, ?_⟩
  · exact Finset.sort_sorted_lt _
  · intro d
    simp [sorted_dates, tsDates, List.mem_map]
  · rw [(hlen ts).1, (hlen (add_node_data ts e)).1]
    exact hcard
  · rw [(hlen ts).2, (hlen (add_node_data ts e)).2]
    exact hcard

/-- A time-series store holding a single entry (one calendar date, patient
count `2`), used to exercise the synthetic-bootstrap path. -/
def ts5 : List ReceivedData := [⟨3, 2, 1/2⟩]

/-- The single-entry store yields the one-point daily series `[2]`. -/
lemma ts5_series : prepare_time_series ts5 "patient_count".data = [2] := by
  have hd : sorted_dates ts5 = [3] := by
    simp [sorted_dates, tsDates, ts5]
  rw [prepare_time_series_count, hd]
  simp [ts5]

/-- C5 counterexample: on a real daily series of one point the code
generates `30` synthetic points (not `30 - 1 = 29`), so the series passed to
fitting has `31` points where the claim demands `30`. -/
theorem c5_counterexample :
    (prepare_time_series ts5 "patient_count".data).length = 1
  ∧ (fitting_series "patient_count".data (fun _ => 0) ts5).length = 31
  ∧ (31 : ℕ) ≠ (30 - 1) + 1 := by
  have h1 : (prepare_time_series ts5 "patient_count".data).length = 1 := by
    rw [ts5_series]
    rfl
  refine ⟨h1, ?_, by decide⟩
  unfold fitting_series
  rw [if_pos (by rw [h1]; norm_num)]
  simp [h1]

/-- C5, amended: whenever the real daily series has fewer than
`min_history = 10` points, the fitting series is exactly `30` synthetic
points (fixed baseline `50` for `patient_count`, `0.3` otherwise, plus the
jitter draw) followed by the real series, so the fitting step always sees at
least `30` points (in fact `30` plus the real length). -/
theorem c5_bootstrap (metric : List Char) (jitter : ℕ → ℚ)
    (ts : List ReceivedData)
    (h : (prepare_time_series ts metric).length < 10) :
    fitting_series metric jitter ts
        = ((List.range 30).map
            (fun i => (if metric = "patient_count".data then (50:ℚ) else 3/10)
              + jitter i))
          ++ prepare_time_series ts metric
  ∧ (fitting_series metric jitter ts).length
      = 30 + (prepare_time_series ts metric).length
  ∧ 30 ≤ (fitting_series metric jitter ts).length := by
  have key : fitting_series metric jitter ts
      = ((List.range 30).map
          (fun i => (if metric = "patient_count".data then (50:ℚ) else 3/10)
            + jitter i))
        ++ prepare_time_series ts metric := by
    unfold fitting_series
    rw [if_pos h]
  refine ⟨key, ?_, ?_⟩
  · rw [key]
    simp
  · rw [key]
    simp

/-- Witness for C5 (amended) on the empty store. -/
theorem c5_bootstrap_witness :
    (prepare_time_series [] "patient_count".data).length < 10
  ∧ (fitting_series "patient_count".data (fun _ => 0) []
        = ((List.range 30).map
            (fun i => (if "patient_count".data = "patient_count".data
                then (50:ℚ) else 3/10) + (fun _ : ℕ => (0:ℚ)) i))
          ++ prepare_time_series [] "patient_count".data
    ∧ (fitting_series "patient_count".data (fun _ => 0) []).length
        = 30 + (prepare_time_series [] "patient_count".data).length
    ∧ 30 ≤ (fitting_series "patient_count".data (fun _ => 0) []).length) :=
  ⟨by decide, c5_bootstrap "patient_count".data (fun _ => 0) [] (by decide)⟩

/-- C6 counterexample: with one real data point, `historical_data` is the
last 14 points of the combined synthetic-plus-real series: it has 14 entries
(the real series has 1) and contains the synthetic baseline value `50`,
which does not occur in the real series. -/
theorem c6_counterexample :
    prepare_time_series ts5 "patient_count".data = [2]
  ∧ (arima_forecast_historical "patient_count".data (fun _ => 0) ts5).length = 14
  ∧ (50 : ℚ) ∈ arima_forecast_historical "patient_count".data (fun _ => 0) ts5
  ∧ (50 : ℚ) ∉ prepare_time_series ts5 "patient_count".data := by
  have hfit : fitting_series "patient_count".data (fun _ => 0) ts5
      = List.replicate 30 (50:ℚ) ++ [2] := by
    unfold fitting_series
    rw [if_pos (by rw [ts5_series]; norm_num)]
    rw [ts5_series]
    simp [List.map_const']
  refine ⟨ts5_series, ?_, ?_, ?_⟩
  · unfold arima_forecast_historical takeLast14
    rw [hfit]
    simp
  · unfold arima_forecast_historical takeLast14
    rw [hfit]
    simp
  · rw [ts5_series]
    norm_num

/-- C6, amended: `historical_data` is the last 14 points (all of them when
fewer) of the series used for fitting, synthetic bootstrap points included;
formally it is a suffix of `fitting_series` of length
`min 14 (fitting length)`. -/
theorem c6_historical (metric : List Char) (jitter : ℕ → ℚ)
    (ts : List ReceivedData) :
    arima_forecast_historical metric jitter ts <:+ fitting_series metric jitter ts
  ∧ (arima_forecast_historical metric jitter ts).length
      = min 14 (fitting_series metric jitter ts).length := by
  unfold arima_forecast_historical takeLast14
  refine ⟨List.drop_suffix _ _, ?_⟩
  rw [List.length_drop]
  omega

/-- C7 counterexample: forecast dates are generated from the request-time
clock, not from the last observed date.  With last observed calendar date
`3` and request instant `100`, the code returns dates `[101, 102]` while the
claim demands `[4, 5]`. -/
theorem c7_counterexample :
    sorted_dates ts5 = [3]
  ∧ arima_forecast_dates 100 2 = [101, 102]
  ∧ arima_forecast_dates 100 2 ≠ [(3:ℚ) + 1, (3:ℚ) + 2] := by
  have hr : List.range 2 = [0, 1] := by decide
  have hd : arima_forecast_dates 100 2 = [101, 102] := by
    unfold arima_forecast_dates
    rw [hr]
    norm_num
  refine ⟨by simp [sorted_dates, tsDates, ts5], hd, ?_⟩
  rw [hd]
  norm_num

/-- C7, amended: the i-th forecast date (0-based) equals the request-time
instant `now` plus `i + 1` days, for every store contents; the list has
exactly `periods` entries. -/
theorem c7_forecast_dates (now : ℚ) (periods i : ℕ) (h : i < periods) :
    (arima_forecast_dates now periods).length = periods
  ∧ (arima_forecast_dates now periods)[i]? = some (now + ((i : ℚ) + 1)) := by
  constructor
  · unfold arima_forecast_dates
    rw [List.length_map, List.length_range]
  · unfold arima_forecast_dates
    rw [List.getElem?_map, List.getElem?_range h]
    rfl

/-- Witness for C7 (amended) at `now = 0`, `periods = 3`, `i = 1`. -/
theorem c7_forecast_dates_witness :
    1 < 3
  ∧ ((arima_forecast_dates 0 3).length = 3
      ∧ (arima_forecast_dates 0 3)[1]? = some (0 + (((1 : ℕ) : ℚ) + 1))) :=
  ⟨by decide, c7_forecast_dates 0 3 1 (by decide)⟩

end HealthVisual
